import Mathlib

/-!
Verification of the print-sheet layout engine of the image-to-print app.

The definitions below are a shallow embedding of `src/components/PrintLayout.tsx`
(plus the shared constants module). JavaScript numbers are modelled as exact
rationals (`ℚ`); `Math.floor` is `Int.floor`; JS records (`Record<string, number>`)
are modelled as insertion-ordered association lists with unique keys.
-/

namespace PrintApp

/-! ## Constants (shared constants module and top of PrintLayout.tsx) -/

/-- `export const DPI = 300`. -/
def DPI : ℚ := 300

/-- `const MARK_THICKNESS_PX = 1`. -/
def MARK_THICKNESS_PX : ℚ := 1

/-- `const MARK_LENGTH_PX = 10`. -/
def MARK_LENGTH_PX : ℚ := 10

/-- `const MARK_PADDING_PX = 2`. -/
def MARK_PADDING_PX : ℚ := 2

/-- Paper dimensions in millimetres (`{width, height}`). -/
structure PaperDims where
  width : ℚ
  height : ℚ
deriving DecidableEq

/-- `export const A4_DIMENSIONS_MM = { width: 210, height: 297 }`. -/
def A4_DIMENSIONS_MM : PaperDims := ⟨210, 297⟩

/-- `const mmToPx = (mm) => (mm / 25.4) * DPI`.  Note: no rounding. -/
def mmToPx (mm : ℚ) : ℚ := mm / 25.4 * DPI

/-! ## Data model -/

/-- `PassportSize` from types.ts: `{name, width_mm, height_mm}`. -/
structure PassportSize where
  name : String
  width_mm : ℚ
  height_mm : ℚ
deriving DecidableEq

/-- The `Random Size` sentinel from `PASSPORT_SIZES`. -/
def randomSizeSentinel : PassportSize := ⟨"Random Size", -1, -1⟩

/-- The `India Passport (35x45 mm)` entry from `PASSPORT_SIZES`. -/
def indiaPassportSize : PassportSize := ⟨"India Passport (35x45 mm)", 35, 45⟩

/-- Margins in millimetres, `{top, right, bottom, left}`. -/
structure Margins where
  top : ℚ
  right : ℚ
  bottom : ℚ
  left : ℚ
deriving DecidableEq

/-- The layout-relevant fields of `ProcessedImage` (the raster data URL is an
opaque handle and never inspected by the layout code). -/
structure ProcImage where
  id : String
  size : PassportSize
  width_px : ℚ
  height_px : ℚ
  rotation : ℕ
deriving DecidableEq

/-- A placed instance: `PositionedImage extends ProcessedImage` with
`{x, y, renderWidth, renderHeight}` (pixels, relative to the printable-area
origin). -/
structure PositionedImage where
  img : ProcImage
  x : ℚ
  y : ℚ
  renderWidth : ℚ
  renderHeight : ℚ
deriving DecidableEq

/-- A default `ProcImage` used only as the out-of-range default of `List.getD`. -/
def dummyImage : ProcImage := ⟨"", ⟨"", 0, 0⟩, 0, 0, 0⟩

/-- Sample standard-mode images for concrete scenarios. -/
def imgA : ProcImage := ⟨"a", indiaPassportSize, 413, 531, 0⟩

def imgB : ProcImage := ⟨"b", indiaPassportSize, 413, 531, 0⟩

/-- A random-mode image with natural size 1000×100 px, rotated 90°: its scaled
footprint is ten times as tall as the target row height. -/
def imgTall : ProcImage := ⟨"r1", randomSizeSentinel, 1000, 100, 90⟩

/-- A random-mode image with natural size 100×100 px, unrotated. -/
def imgSquare : ProcImage := ⟨"s1", randomSizeSentinel, 100, 100, 0⟩

/-- A default `PositionedImage`, used only as the out-of-range default of
`List.getD`. -/
def dummyPositioned : PositionedImage := ⟨dummyImage, 0, 0, 0, 0⟩

/-! ## Layout Calculator (`calculateLayoutInfo`, PrintLayout.tsx lines 28-91) -/

/-- Result record of `calculateLayoutInfo`. -/
structure LayoutInfo where
  portrait : ℤ
  landscape : ℤ
  max : ℤ
  rotateForMax : Bool
deriving DecidableEq

/-- `const gapMm = noGap ? 0 : 2` (line 46; the same expression is used at
line 871 in `paginatedLayout`). -/
def gapMmOf (noGap : Bool) : ℚ := if noGap then 0 else 2

/-- `const markPaddingMm = showCutMarks && !noGap ? (MARK_PADDING_PX / DPI) * 25.4 : 0`
(line 47, the Layout Calculator's cut-mark padding: pixels converted to mm). -/
def markPaddingMmOf (showCutMarks noGap : Bool) : ℚ :=
  if showCutMarks && !noGap then MARK_PADDING_PX / DPI * 25.4 else 0

/-- One grid-count expression of the Layout Calculator (lines 58-67):
`cell > 0 ? Math.floor((printablePx + gapPx) / (cellPx + gapPx)) : 0`. -/
def calcGrid (printablePx cellPx gapPx : ℚ) : ℤ :=
  if cellPx > 0 then ⌊(printablePx + gapPx) / (cellPx + gapPx)⌋ else 0

/-- The Layout Calculator's cell footprint (lines 56-57 / 71-72): photo
dimension plus twice the cut-mark padding, in pixels. -/
def calcCellPx (photoMm : ℚ) (showCutMarks noGap : Bool) : ℚ :=
  mmToPx photoMm + mmToPx (markPaddingMmOf showCutMarks noGap) * 2

/-- `calculateLayoutInfo` (lines 28-91). -/
def calculateLayoutInfo (paperWidthMm paperHeightMm : ℚ) (photoSize : Option PassportSize)
    (margins : Margins) (showCutMarks noGap : Bool) : LayoutInfo :=
  match photoSize with
  | none => ⟨0, 0, 0, false⟩
  | some ps =>
    if ps.name = "Random Size" then ⟨0, 0, 0, false⟩
    else
      if paperWidthMm - margins.left - margins.right ≤ 0 ∨
          paperHeightMm - margins.top - margins.bottom ≤ 0 then ⟨0, 0, 0, false⟩
      else
        let printableWidthPx := mmToPx (paperWidthMm - margins.left - margins.right)
        let printableHeightPx := mmToPx (paperHeightMm - margins.top - margins.bottom)
        let gapPx := mmToPx (gapMmOf noGap)
        let colsP := calcGrid printableWidthPx (calcCellPx ps.width_mm showCutMarks noGap) gapPx
        let rowsP := calcGrid printableHeightPx (calcCellPx ps.height_mm showCutMarks noGap) gapPx
        let portraitMax := colsP * rowsP
        let colsL := calcGrid printableWidthPx (calcCellPx ps.height_mm showCutMarks noGap) gapPx
        let rowsL := calcGrid printableHeightPx (calcCellPx ps.width_mm showCutMarks noGap) gapPx
        let landscapeMax := colsL * rowsL
        ⟨portraitMax, landscapeMax, max portraitMax landscapeMax,
         decide (portraitMax < landscapeMax)⟩

/-! ## Quantity map (`Record<string, number>` state and its handlers) -/

/-- The quantity map: insertion-ordered key/value pairs with unique keys. -/
abbrev Quantities := List (String × ℤ)

/-- `quantities[id] || 0`. -/
def getQ (q : Quantities) (id : String) : ℤ :=
  ((q.find? (fun p => p.1 == id)).map Prod.snd).getD 0

/-- `{ ...quantities, [id]: v }` — replace the binding for `id` (or add one).
Only the key set and values are observable downstream (sums, lookups, and a
sort by image index), so the slot order of an existing key is immaterial. -/
def setQ (q : Quantities) (id : String) (v : ℤ) : Quantities :=
  q.filter (fun p => !(p.1 == id)) ++ [(id, v)]

/-- `Object.values(quantities).reduce((sum, count) => sum + count, 0)`
(the component's `totalCount`, line 835). -/
def sumQ (q : Quantities) : ℤ := (q.map Prod.snd).sum

/-- `handleQuantityChange` (lines 991-1007). -/
def handleQuantityChange (isRandomSizeMode : Bool) (quantities : Quantities)
    (maxPhotos : ℤ) (id : String) (value : ℤ) : Quantities :=
  if isRandomSizeMode then setQ quantities id value
  else
    let currentTotalWithoutThisImage :=
      ((quantities.filter (fun p => !(p.1 == id))).map Prod.snd).sum
    let maxForThisImage := maxPhotos - currentTotalWithoutThisImage
    let newValue := min value maxForThisImage
    if 0 ≤ newValue then setQ quantities id newValue else quantities

/-- The loop body of the quantities effect (lines 982-986): image `i` receives
`baseCount + (remainder-- > 0 ? 1 : 0)`. -/
def distribute (baseCount : ℤ) : List ProcImage → ℤ → Quantities
  | [], _ => []
  | image :: rest, remainder =>
    (image.id, baseCount + if remainder > 0 then 1 else 0)
      :: distribute baseCount rest (remainder - 1)

/-- The quantities effect (lines 978-989, standard mode): rebuild the map from
scratch; when there are images and capacity, hand out
`baseCount = Math.floor(maxPhotos / images.length)` plus one extra to the first
`maxPhotos % images.length` images; otherwise the map is empty. -/
def resetQuantities (images : List ProcImage) (maxPhotos : ℤ) : Quantities :=
  if 0 < images.length ∧ 0 < maxPhotos then
    distribute (maxPhotos / images.length) images (maxPhotos % images.length)
  else []

/-! ## Quantity expansion (`imagesToPrint`, lines 840-858) -/

/-- `images.findIndex(img => img.id === a)` (returns `-1` when absent). -/
def jsFindIndex (images : List ProcImage) (id : String) : ℤ :=
  match images.findIdx? (fun im => im.id == id) with
  | some i => (i : ℤ)
  | none => -1

/-- `Object.keys(quantities).sort((a, b) => findIndex(a) - findIndex(b))`:
the quantity keys sorted by the position of the matching image.  The JS engine
sort is modelled by a stable structural sort; keys that tie (both absent from
`images`) contribute nothing downstream. -/
def sortedImageIds (images : List ProcImage) (quantities : Quantities) : List String :=
  (quantities.map Prod.fst).insertionSort
    (fun a b => jsFindIndex images a ≤ jsFindIndex images b)

/-- The loop body of `imagesToPrint` (lines 849-856): push the image matching
`id` into the flat array `quantities[id] || 0` times (nothing if no image
matches). -/
def expandId (images : List ProcImage) (quantities : Quantities) (id : String) :
    List ProcImage :=
  match images.find? (fun im => im.id == id) with
  | some image => List.replicate (getQ quantities id).toNat image
  | none => []

/-- `imagesToPrint` (lines 840-858): in random mode the raw list; otherwise each
image repeated `quantities[id] || 0` times, iterating ids in sorted order and
skipping ids with no matching image. -/
def imagesToPrint (images : List ProcImage) (quantities : Quantities)
    (isRandomSizeMode : Bool) : List ProcImage :=
  if isRandomSizeMode then images
  else ((sortedImageIds images quantities).map (expandId images quantities)).flatten

/-! ## Sheet Packer (`paginatedLayout`, lines 860-968) -/

/-- `const markPaddingPx = mmToPx(showCutMarks && !noGap ? MARK_PADDING_PX : 0)`
(line 917): the packer feeds the pixel constant `MARK_PADDING_PX` to `mmToPx`
as though it were millimetres (contrast `markPaddingMmOf` above). -/
def packerMarkPaddingMm (showCutMarks noGap : Bool) : ℚ :=
  if showCutMarks && !noGap then MARK_PADDING_PX else 0

/-- Packer cell width `totalWidth = mmToPx(photoW) + markPaddingPx * 2`
(lines 921-928), with `photoW` swapped when `rotatePhotos`. -/
def standardCellWidthPx (ps : PassportSize) (showCutMarks noGap rotatePhotos : Bool) : ℚ :=
  mmToPx (if rotatePhotos then ps.height_mm else ps.width_mm)
    + mmToPx (packerMarkPaddingMm showCutMarks noGap) * 2

/-- Packer cell height `totalHeight` (lines 924-929). -/
def standardCellHeightPx (ps : PassportSize) (showCutMarks noGap rotatePhotos : Bool) : ℚ :=
  mmToPx (if rotatePhotos then ps.width_mm else ps.height_mm)
    + mmToPx (packerMarkPaddingMm showCutMarks noGap) * 2

/-- Packer `cols` (lines 931-934). -/
def standardCols (paper : PaperDims) (margins : Margins)
    (showCutMarks noGap rotatePhotos : Bool) (ps : PassportSize) : ℤ :=
  let printableWidthPx := mmToPx (paper.width - margins.left - margins.right)
  let gapPx := mmToPx (gapMmOf noGap)
  let totalWidth := standardCellWidthPx ps showCutMarks noGap rotatePhotos
  if totalWidth > 0 then ⌊(printableWidthPx + gapPx) / (totalWidth + gapPx)⌋ else 0

/-- Packer `rows` (lines 935-938). -/
def standardRows (paper : PaperDims) (margins : Margins)
    (showCutMarks noGap rotatePhotos : Bool) (ps : PassportSize) : ℤ :=
  let printableHeightPx := mmToPx (paper.height - margins.top - margins.bottom)
  let gapPx := mmToPx (gapMmOf noGap)
  let totalHeight := standardCellHeightPx ps showCutMarks noGap rotatePhotos
  if totalHeight > 0 then ⌊(printableHeightPx + gapPx) / (totalHeight + gapPx)⌋ else 0

/-- Packer `itemsPerPage = cols * rows` (line 939). -/
def standardItemsPerPage (paper : PaperDims) (margins : Margins)
    (showCutMarks noGap rotatePhotos : Bool) (ps : PassportSize) : ℤ :=
  standardCols paper margins showCutMarks noGap rotatePhotos ps
    * standardRows paper margins showCutMarks noGap rotatePhotos ps

/-- The standard-mode placement loop (lines 943-954): item `i` goes to
`col = (i % itemsPerPage) % cols`, `row = Math.floor((i % itemsPerPage) / cols)`
at `x = col * (totalWidth + gapPx)`, `y = row * (totalHeight + gapPx)`. -/
def placeStandard (itemsPerPage cols : ℤ) (totalWidth totalHeight gapPx : ℚ) :
    ℕ → List ProcImage → List PositionedImage
  | _, [] => []
  | i, image :: rest =>
    let itemOnPageIndex : ℤ := (i : ℤ) % itemsPerPage
    let col := itemOnPageIndex % cols
    let row := itemOnPageIndex / cols
    ⟨image, (col : ℚ) * (totalWidth + gapPx), (row : ℚ) * (totalHeight + gapPx),
      totalWidth, totalHeight⟩
      :: placeStandard itemsPerPage cols totalWidth totalHeight gapPx (i + 1) rest

/-- Scaled footprint width of a random-mode item (lines 884-890): target height
times natural aspect, swapped when `rotation === 90`. -/
def randomScaledWidth (targetHeightPx : ℚ) (image : ProcImage) : ℚ :=
  if image.rotation = 90 then targetHeightPx
  else targetHeightPx * (image.width_px / image.height_px)

/-- Scaled footprint height of a random-mode item (lines 884-890). -/
def randomScaledHeight (targetHeightPx : ℚ) (image : ProcImage) : ℚ :=
  if image.rotation = 90 then targetHeightPx * (image.width_px / image.height_px)
  else targetHeightPx

/-- The random-mode greedy row packer (lines 880-914).  State: cursor `(cx, cy)`,
current `rowHeight`, the page being filled, and the closed pages.  Wrap to a new
row when the cursor is mid-row and the item would overflow the printable width;
start a fresh page (cursor fully reset) when the item would overflow the
printable height. -/
def randomPackGo (printableWidthPx printableHeightPx gapPx targetHeightPx : ℚ) :
    List ProcImage → ℚ → ℚ → ℚ → List PositionedImage →
    List (List PositionedImage) → List (List PositionedImage)
  | [], _, _, _, curPage, donePages => donePages ++ [curPage]
  | image :: rest, cx, cy, rowHeight, curPage, donePages =>
    let scaledWidth := randomScaledWidth targetHeightPx image
    let scaledHeight := randomScaledHeight targetHeightPx image
    let cx2 := if cx > 0 ∧ cx + scaledWidth > printableWidthPx then 0 else cx
    let cy2 := if cx > 0 ∧ cx + scaledWidth > printableWidthPx
               then cy + rowHeight + gapPx else cy
    let rh2 := if cx > 0 ∧ cx + scaledWidth > printableWidthPx then 0 else rowHeight
    if cy2 + scaledHeight > printableHeightPx then
      randomPackGo printableWidthPx printableHeightPx gapPx targetHeightPx rest
        (scaledWidth + gapPx) 0 scaledHeight
        [⟨image, 0, 0, scaledWidth, scaledHeight⟩] (donePages ++ [curPage])
    else
      randomPackGo printableWidthPx printableHeightPx gapPx targetHeightPx rest
        (cx2 + scaledWidth + gapPx) cy2 (max rh2 scaledHeight)
        (curPage ++ [⟨image, cx2, cy2, scaledWidth, scaledHeight⟩]) donePages

/-- `TARGET_HEIGHT_PX = Math.min(mmToPx(45), printableHeightPx) * randomImageScale`
(lines 877-879). -/
def randomTargetHeightPx (printableHeightPx randomImageScale : ℚ) : ℚ :=
  min (mmToPx 45) printableHeightPx * randomImageScale

/-- `paginatedLayout` (lines 860-968).  `imagesToPrintL` is the already-expanded
flat list (the `imagesToPrint` memo above); `passportSize` is non-null here
because the component only computes a layout when at least one image exists. -/
def paginatedLayout (imagesToPrintL : List ProcImage) (paperDimensions : PaperDims)
    (margins : Margins) (noGap isRandomSizeMode showCutMarks rotatePhotos : Bool)
    (passportSize : PassportSize) (randomImageScale : ℚ) :
    List (List PositionedImage) :=
  if imagesToPrintL.length = 0 then []
  else
    let printableWidthPx := mmToPx (paperDimensions.width - margins.left - margins.right)
    let printableHeightPx := mmToPx (paperDimensions.height - margins.top - margins.bottom)
    if printableWidthPx ≤ 0 ∨ printableHeightPx ≤ 0 then []
    else
      let gapPx := mmToPx (gapMmOf noGap)
      let pages :=
        if isRandomSizeMode then
          randomPackGo printableWidthPx printableHeightPx gapPx
            (randomTargetHeightPx printableHeightPx randomImageScale)
            imagesToPrintL 0 0 0 [] []
        else
          let cols := standardCols paperDimensions margins showCutMarks noGap
            rotatePhotos passportSize
          let itemsPerPage := standardItemsPerPage paperDimensions margins showCutMarks
            noGap rotatePhotos passportSize
          if itemsPerPage > 0 then
            [placeStandard itemsPerPage cols
              (standardCellWidthPx passportSize showCutMarks noGap rotatePhotos)
              (standardCellHeightPx passportSize showCutMarks noGap rotatePhotos)
              gapPx 0 (imagesToPrintL.take itemsPerPage.toNat)]
          else [[]]
      pages.filter (fun p => 0 < p.length)

/-! ## Page-navigation state machine (lines 806, 970-976, 1180-1201) -/

/-- The page-navigation state: `currentPage` (1-based) and the pagination length. -/
structure PageState where
  currentPage : ℕ
  pageCount : ℕ
deriving DecidableEq

/-- The `currentPage` effect (lines 970-976): snap down when the page count
shrinks below `currentPage`; reset to 1 when the pagination becomes empty. -/
def snapCurrentPage (p len : ℕ) : ℕ :=
  if len < p ∧ 0 < len then len
  else if len = 0 ∧ p ≠ 1 then 1
  else p

/-- The reachable states of the page-navigation machine.  `currentPage` starts
at 1 (`useState(1)`); Prev/Next are rendered only when the pagination has more
than one page and are disabled at the ends (lines 1180-1201); recomputing the
pagination replaces `pageCount` and runs the snap effect. -/
inductive PageReachable : PageState → Prop where
  | init (len : ℕ) : PageReachable ⟨1, len⟩
  | prev {s : PageState} : PageReachable s → 1 < s.pageCount → s.currentPage ≠ 1 →
      PageReachable ⟨max 1 (s.currentPage - 1), s.pageCount⟩
  | next {s : PageState} : PageReachable s → 1 < s.pageCount →
      s.currentPage ≠ s.pageCount →
      PageReachable ⟨min s.pageCount (s.currentPage + 1), s.pageCount⟩
  | recompute {s : PageState} (newLen : ℕ) : PageReachable s →
      PageReachable ⟨snapCurrentPage s.currentPage newLen, newLen⟩

/-! ## Quantity-map state machine (standard mode; lines 787, 978-989, 991-1007) -/

/-- Quantity-map state: the map plus the current capacity
(`maxPhotos = layoutInfo.max`). -/
structure QuantState where
  quantities : Quantities
  maxPhotos : ℤ

/-- Reachable quantity states in standard mode: the map starts empty
(`useState({})`) with a calculator-produced capacity; recomputing the capacity
reruns the quantities effect; the user edits one quantity at a time through the
clamping handler. -/
inductive QuantReachable : QuantState → Prop where
  | init (pw ph : ℚ) (ps : Option PassportSize) (m : Margins) (sc ng : Bool) :
      QuantReachable ⟨[], (calculateLayoutInfo pw ph ps m sc ng).max⟩
  | recompute {s : QuantState} (images : List ProcImage) (pw ph : ℚ)
      (ps : Option PassportSize) (m : Margins) (sc ng : Bool) :
      QuantReachable s →
      QuantReachable ⟨resetQuantities images ((calculateLayoutInfo pw ph ps m sc ng).max),
        (calculateLayoutInfo pw ph ps m sc ng).max⟩
  | change {s : QuantState} (id : String) (value : ℤ) : QuantReachable s →
      QuantReachable ⟨handleQuantityChange false s.quantities s.maxPhotos id value,
        s.maxPhotos⟩

/-! ## Sheet Renderer error flow (lines 586-779) -/

/-- The render-relevant view of an image: its id and whether its data URL
decodes (`Image.onload` vs `Image.onerror`). -/
structure RenderImage where
  id : String
  loads : Bool
deriving DecidableEq

/-- The target surface: a canvas whose dimensions are set to the full paper in
pixels (lines 591-596). -/
structure RenderCanvas where
  width : ℚ
  height : ℚ
deriving DecidableEq

/-- The error built at line 612: `new Error("Failed to load image: " + img.id)`. -/
def loadFailureMessage (id : String) : String := "Failed to load image: " ++ id

/-- The error thrown at lines 774-776 when both strategies fail. -/
def renderFailureMessage : String :=
  "Failed to render page due to memory constraints. Try reducing image count or quality."

/-- `renderSheetDirectlyToCanvas` (lines 586-722), reduced to its failure
behaviour: `Promise.all` of the image loads rejects with the error of a failing
image (modelled as the first in page order), aborting the whole render;
otherwise a canvas sized `mmToPx(paper)` is produced. -/
def renderSheetDirectlyToCanvas (page : List RenderImage)
    (paperDimensions : PaperDims) : Except String RenderCanvas :=
  match page.find? (fun image => !image.loads) with
  | some image => .error (loadFailureMessage image.id)
  | none => .ok ⟨mmToPx paperDimensions.width, mmToPx paperDimensions.height⟩

/-- `renderPageToCanvas` (lines 760-779): try the direct draw; on any failure
fall back to the html2canvas DOM snapshot (an external library, modelled by its
outcome `fallbackResult`); if that also fails, throw the generic
memory-constraints error. -/
def renderPageToCanvas (page : List RenderImage) (paperDimensions : PaperDims)
    (fallbackResult : Option RenderCanvas) : Except String RenderCanvas :=
  match renderSheetDirectlyToCanvas page paperDimensions with
  | .ok canvas => .ok canvas
  | .error _ =>
    match fallbackResult with
    | some canvas => .ok canvas
    | none => .error renderFailureMessage

/-! ## Helper lemmas -/

theorem mmToPx_nonneg {mm : ℚ} (h : 0 ≤ mm) : 0 ≤ mmToPx mm := by
  unfold mmToPx DPI
  positivity

theorem mmToPx_pos {mm : ℚ} (h : 0 < mm) : 0 < mmToPx mm := by
  unfold mmToPx DPI
  positivity

theorem mmToPx_nonpos {mm : ℚ} (h : mm ≤ 0) : mmToPx mm ≤ 0 := by
  unfold mmToPx DPI
  rw [div_mul_eq_mul_div]
  apply div_nonpos_iff.mpr
  right
  constructor
  · nlinarith
  · norm_num

theorem gapMmOf_nonneg (noGap : Bool) : 0 ≤ gapMmOf noGap := by
  cases noGap <;> norm_num [gapMmOf]

/-- Each grid-count expression of the Layout Calculator is nonnegative when the
printable dimension and the gap are nonnegative. -/
theorem calcGrid_nonneg (W c g : ℚ) (hW : 0 ≤ W) (hg : 0 ≤ g) :
    0 ≤ calcGrid W c g := by
  unfold calcGrid
  split
  · next hc =>
      exact Int.floor_nonneg.mpr
        (div_nonneg (add_nonneg hW hg) (add_nonneg (le_of_lt hc) hg))
  · exact le_refl 0

/-- `calculateLayoutInfo` on its main branch (named photo size, positive
printable area). -/
theorem calculateLayoutInfo_branch (pw ph : ℚ) (ps : PassportSize) (m : Margins)
    (sc ng : Bool) (hname : ¬ ps.name = "Random Size")
    (hpr : ¬(pw - m.left - m.right ≤ 0 ∨ ph - m.top - m.bottom ≤ 0)) :
    calculateLayoutInfo pw ph (some ps) m sc ng =
      ⟨calcGrid (mmToPx (pw - m.left - m.right)) (calcCellPx ps.width_mm sc ng)
          (mmToPx (gapMmOf ng)) *
        calcGrid (mmToPx (ph - m.top - m.bottom)) (calcCellPx ps.height_mm sc ng)
          (mmToPx (gapMmOf ng)),
       calcGrid (mmToPx (pw - m.left - m.right)) (calcCellPx ps.height_mm sc ng)
          (mmToPx (gapMmOf ng)) *
        calcGrid (mmToPx (ph - m.top - m.bottom)) (calcCellPx ps.width_mm sc ng)
          (mmToPx (gapMmOf ng)),
       max
        (calcGrid (mmToPx (pw - m.left - m.right)) (calcCellPx ps.width_mm sc ng)
            (mmToPx (gapMmOf ng)) *
          calcGrid (mmToPx (ph - m.top - m.bottom)) (calcCellPx ps.height_mm sc ng)
            (mmToPx (gapMmOf ng)))
        (calcGrid (mmToPx (pw - m.left - m.right)) (calcCellPx ps.height_mm sc ng)
            (mmToPx (gapMmOf ng)) *
          calcGrid (mmToPx (ph - m.top - m.bottom)) (calcCellPx ps.width_mm sc ng)
            (mmToPx (gapMmOf ng))),
       decide
        (calcGrid (mmToPx (pw - m.left - m.right)) (calcCellPx ps.width_mm sc ng)
            (mmToPx (gapMmOf ng)) *
          calcGrid (mmToPx (ph - m.top - m.bottom)) (calcCellPx ps.height_mm sc ng)
            (mmToPx (gapMmOf ng)) <
         calcGrid (mmToPx (pw - m.left - m.right)) (calcCellPx ps.height_mm sc ng)
            (mmToPx (gapMmOf ng)) *
          calcGrid (mmToPx (ph - m.top - m.bottom)) (calcCellPx ps.width_mm sc ng)
            (mmToPx (gapMmOf ng)))⟩ := by
  simp only [calculateLayoutInfo]
  rw [if_neg hname, if_neg hpr]

/-- The Layout Calculator never reports a negative capacity. -/
theorem layoutInfo_max_nonneg (pw ph : ℚ) (photoSize : Option PassportSize)
    (m : Margins) (sc ng : Bool) :
    0 ≤ (calculateLayoutInfo pw ph photoSize m sc ng).max := by
  rcases photoSize with _ | ps
  · exact le_refl 0
  · by_cases hname : ps.name = "Random Size"
    · simp only [calculateLayoutInfo]
      rw [if_pos hname]
    · by_cases hpr : pw - m.left - m.right ≤ 0 ∨ ph - m.top - m.bottom ≤ 0
      · simp only [calculateLayoutInfo]
        rw [if_neg hname, if_pos hpr]
      · rw [calculateLayoutInfo_branch pw ph ps m sc ng hname hpr]
        push_neg at hpr
        have hW : 0 ≤ mmToPx (pw - m.left - m.right) := le_of_lt (mmToPx_pos hpr.1)
        have hH : 0 ≤ mmToPx (ph - m.top - m.bottom) := le_of_lt (mmToPx_pos hpr.2)
        have hg : 0 ≤ mmToPx (gapMmOf ng) := mmToPx_nonneg (gapMmOf_nonneg ng)
        exact le_max_of_le_left
          (mul_nonneg (calcGrid_nonneg _ _ _ hW hg) (calcGrid_nonneg _ _ _ hH hg))

theorem sumQ_cons (p : String × ℤ) (q : Quantities) : sumQ (p :: q) = p.2 + sumQ q := by
  simp [sumQ]

theorem sumQ_setQ (q : Quantities) (id : String) (v : ℤ) :
    sumQ (setQ q id v) = ((q.filter (fun p => !(p.1 == id))).map Prod.snd).sum + v := by
  simp [setQ, sumQ]

/-- When the remainder has run out, `distribute` hands out `baseCount` to all. -/
theorem distribute_sum_nonpos (b : ℤ) (imgs : List ProcImage) (r : ℤ) (hr : r ≤ 0) :
    sumQ (distribute b imgs r) = (imgs.length : ℤ) * b := by
  induction imgs generalizing r with
  | nil => simp [distribute, sumQ]
  | cons image rest ih =>
      rw [show distribute b (image :: rest) r
          = (image.id, b + if r > 0 then 1 else 0) :: distribute b rest (r - 1) from rfl]
      rw [sumQ_cons, ih (r - 1) (by omega), if_neg (show ¬ r > 0 by omega)]
      simp only [List.length_cons]
      push_cast
      ring

/-- `distribute` hands out `n * baseCount + remainder` copies in total when
`0 ≤ remainder ≤ n`. -/
theorem distribute_sum (b : ℤ) (imgs : List ProcImage) (r : ℤ) (h0 : 0 ≤ r)
    (hn : r ≤ (imgs.length : ℤ)) :
    sumQ (distribute b imgs r) = (imgs.length : ℤ) * b + r := by
  induction imgs generalizing r with
  | nil =>
      have hz : r = 0 := by simp at hn; omega
      subst hz
      simp [distribute, sumQ]
  | cons image rest ih =>
      by_cases hr : r > 0
      · rw [show distribute b (image :: rest) r
            = (image.id, b + if r > 0 then 1 else 0) :: distribute b rest (r - 1) from rfl]
        rw [sumQ_cons, if_pos hr,
          ih (r - 1) (by omega) (by simp only [List.length_cons] at hn; push_cast at hn ⊢; omega)]
        simp only [List.length_cons]
        push_cast
        ring
      · have hz : r = 0 := by omega
        subst hz
        rw [distribute_sum_nonpos b _ 0 le_rfl]
        ring

/-- The quantities effect never hands out more than the capacity (it hands out
exactly the capacity when it hands out anything at all). -/
theorem resetQuantities_sum_le (images : List ProcImage) (maxPhotos : ℤ)
    (hm : 0 ≤ maxPhotos) :
    sumQ (resetQuantities images maxPhotos) ≤ maxPhotos := by
  unfold resetQuantities
  split
  · next hc =>
      obtain ⟨hlen, hmax⟩ := hc
      have hne : (images.length : ℤ) ≠ 0 := by
        simp only [ne_eq, Nat.cast_eq_zero]
        omega
      have h0 : 0 ≤ maxPhotos % (images.length : ℤ) := Int.emod_nonneg _ hne
      have h1 : maxPhotos % (images.length : ℤ) < (images.length : ℤ) :=
        Int.emod_lt_of_pos _ (by exact_mod_cast hlen)
      rw [distribute_sum _ _ _ h0 (le_of_lt h1),
        Int.ediv_add_emod maxPhotos (images.length : ℤ)]
  · simpa [sumQ] using hm

/-- The grid count is at least 1 as soon as the (positive) cell fits in the
printable dimension (floor semantics: a partially fitting cell never counts,
but a fully fitting one always does). -/
theorem calcGrid_one_le (W c g : ℚ) (hc : 0 < c) (hg : 0 ≤ g) (hcW : c ≤ W) :
    (1 : ℤ) ≤ calcGrid W c g := by
  unfold calcGrid
  rw [if_pos hc, Int.le_floor]
  push_cast
  rw [le_div_iff₀ (add_pos_of_pos_of_nonneg hc hg), one_mul]
  linarith

/-- `placeStandard` places every image it is given, in order. -/
theorem placeStandard_length (ipp cols : ℤ) (w h g : ℚ) (i : ℕ) (imgs : List ProcImage) :
    (placeStandard ipp cols w h g i imgs).length = imgs.length := by
  induction imgs generalizing i with
  | nil => rfl
  | cons a l ih => simpa [placeStandard] using ih (i + 1)

/-- Membership in the random packer's output pages: every placed instance sits
at a `y` that, together with its render height, stays within the printable
height — provided every incoming image's scaled height fits at all. -/
theorem randomPackGo_height (pW pH gap target : ℚ) (imgs : List ProcImage)
    (cx cy rh : ℚ) (curPage : List PositionedImage)
    (donePages : List (List PositionedImage))
    (himgs : ∀ img ∈ imgs, randomScaledHeight target img ≤ pH)
    (hcur : ∀ inst ∈ curPage, inst.y + inst.renderHeight ≤ pH)
    (hdone : ∀ p ∈ donePages, ∀ inst ∈ p, inst.y + inst.renderHeight ≤ pH) :
    ∀ p ∈ randomPackGo pW pH gap target imgs cx cy rh curPage donePages,
      ∀ inst ∈ p, inst.y + inst.renderHeight ≤ pH := by
  induction imgs generalizing cx cy rh curPage donePages with
  | nil =>
      intro p hp
      simp only [randomPackGo] at hp
      rcases List.mem_append.mp hp with hmem | hmem
      · exact hdone p hmem
      · rw [List.mem_singleton.mp hmem]
        exact hcur
  | cons img rest ih =>
      intro p hp
      simp only [randomPackGo] at hp
      have himgs2 : ∀ i ∈ rest, randomScaledHeight target i ≤ pH :=
        fun i hi => himgs i (List.mem_cons_of_mem _ hi)
      have hnewcur : ∀ inst ∈ [(⟨img, 0, 0, randomScaledWidth target img,
          randomScaledHeight target img⟩ : PositionedImage)],
          inst.y + inst.renderHeight ≤ pH := by
        intro inst hinst
        rw [List.mem_singleton.mp hinst]
        simpa using himgs img (List.mem_cons_self _ _)
      have hnewdone : ∀ pg ∈ donePages ++ [curPage],
          ∀ inst ∈ pg, inst.y + inst.renderHeight ≤ pH := by
        intro pg hpg
        rcases List.mem_append.mp hpg with hmem | hmem
        · exact hdone pg hmem
        · rw [List.mem_singleton.mp hmem]
          exact hcur
      split at hp <;> split at hp
      · exact ih _ _ _ _ _ himgs2 hnewcur hnewdone p hp
      · next hfits =>
          push_neg at hfits
          refine ih _ _ _ _ _ himgs2 ?_ hdone p hp
          intro inst hinst
          rcases List.mem_append.mp hinst with hmem | hmem
          · exact hcur inst hmem
          · rw [List.mem_singleton.mp hmem]
            exact hfits
      · exact ih _ _ _ _ _ himgs2 hnewcur hnewdone p hp
      · next hfits =>
          push_neg at hfits
          refine ih _ _ _ _ _ himgs2 ?_ hdone p hp
          intro inst hinst
          rcases List.mem_append.mp hinst with hmem | hmem
          · exact hcur inst hmem
          · rw [List.mem_singleton.mp hmem]
            exact hfits

/-- `distribute` assigns one pair per image, in order. -/
theorem distribute_length (b : ℤ) (imgs : List ProcImage) (r : ℤ) :
    (distribute b imgs r).length = imgs.length := by
  induction imgs generalizing r with
  | nil => rfl
  | cons image rest ih =>
      simpa [distribute] using ih (r - 1)

/-- Entry `i` of `distribute` is the `i`-th image's id with
`baseCount` plus one exactly when `i < remainder`. -/
theorem distribute_getD (b : ℤ) (imgs : List ProcImage) (r : ℤ) (i : ℕ)
    (hi : i < imgs.length) :
    (distribute b imgs r).getD i ("", 0)
      = ((imgs.getD i dummyImage).id, b + if (i : ℤ) < r then 1 else 0) := by
  induction imgs generalizing r i with
  | nil => simp at hi
  | cons image rest ih =>
      cases i with
      | zero =>
          show ((image.id, b + if r > 0 then 1 else 0) :: distribute b rest (r - 1)).getD 0 ("", 0) = _
          simp only [List.getD_cons_zero]
          norm_num
      | succ n =>
          have hn : n < rest.length := by simpa using hi
          show ((image.id, b + if r > 0 then 1 else 0) :: distribute b rest (r - 1)).getD (n + 1) ("", 0) = _
          simp only [List.getD_cons_succ]
          rw [ih (r - 1) n hn]
          have hiff : ((n : ℤ) < r - 1) ↔ (((n + 1 : ℕ) : ℤ) < r) := by
            push_cast
            omega
          have hif : (if (n : ℤ) < r - 1 then (1 : ℤ) else 0)
              = (if ((n + 1 : ℕ) : ℤ) < r then (1 : ℤ) else 0) :=
            if_congr hiff rfl rfl
          rw [hif]

theorem getQ_nonneg (q : Quantities) (hvals : ∀ p ∈ q, 0 ≤ p.2) (id : String) :
    0 ≤ getQ q id := by
  unfold getQ
  cases heq : q.find? (fun p => p.1 == id) with
  | none => simp
  | some pr => simpa using hvals pr (List.mem_of_find?_eq_some heq)

theorem getQ_cons_self (p : String × ℤ) (q : Quantities) : getQ (p :: q) p.1 = p.2 := by
  unfold getQ
  rw [List.find?_cons_of_pos _ (by simp)]
  rfl

theorem getQ_cons_ne (p : String × ℤ) (q : Quantities) (id : String) (h : ¬ p.1 = id) :
    getQ (p :: q) id = getQ q id := by
  unfold getQ
  rw [List.find?_cons_of_neg _ (by simpa using h)]

/-- With unique keys, summing the lookups over the key list is summing the
values. -/
theorem getQ_keys_sum (q : Quantities) (hnodup : (q.map Prod.fst).Nodup) :
    ((q.map Prod.fst).map (fun id => getQ q id)).sum = sumQ q := by
  induction q with
  | nil => rfl
  | cons p rest ih =>
      obtain ⟨hp, hrest⟩ := List.nodup_cons.mp hnodup
      simp only [List.map_cons, List.sum_cons]
      rw [getQ_cons_self, sumQ_cons]
      congr 1
      rw [List.map_congr_left
        (fun id hid => getQ_cons_ne p rest id (fun he => hp (by rwa [he])))]
      exact ih hrest

/-- When some image matches `id`, the per-id expansion has `quantities[id] || 0`
entries. -/
theorem expandId_length (images : List ProcImage) (q : Quantities) (id : String)
    (h : ∃ im ∈ images, im.id = id) :
    (expandId images q id).length = (getQ q id).toNat := by
  unfold expandId
  obtain ⟨im, him, hime⟩ := h
  have hs : (images.find? (fun im2 => im2.id == id)).isSome = true := by
    rw [List.find?_isSome]
    exact ⟨im, him, by simp [hime]⟩
  obtain ⟨im2, him2⟩ := Option.isSome_iff_exists.mp hs
  rw [him2]
  simp

/-- The expanded standard-mode print list has exactly `sum(quantities)` entries
when the quantity map has unique keys that all match an image and nonnegative
values. -/
theorem imagesToPrint_length (images : List ProcImage) (q : Quantities)
    (hkeys : ∀ p ∈ q, ∃ im ∈ images, im.id = p.1)
    (hnodup : (q.map Prod.fst).Nodup)
    (hvals : ∀ p ∈ q, 0 ≤ p.2) :
    ((imagesToPrint images q false).length : ℤ) = sumQ q := by
  have hids : ∀ id ∈ q.map Prod.fst, ∃ im ∈ images, im.id = id := by
    intro id hid
    obtain ⟨p, hp, rfl⟩ := List.mem_map.mp hid
    exact hkeys p hp
  have hperm : (sortedImageIds images q).Perm (q.map Prod.fst) :=
    List.perm_insertionSort _ _
  have hsortids : ∀ id ∈ sortedImageIds images q, ∃ im ∈ images, im.id = id :=
    fun id hid => hids id (hperm.mem_iff.mp hid)
  unfold imagesToPrint
  rw [if_neg Bool.false_ne_true, List.length_flatten, List.map_map]
  rw [List.map_congr_left (fun id hid => by
    show (List.length ∘ expandId images q) id = (fun id2 => (getQ q id2).toNat) id
    simp only [Function.comp_apply]
    exact expandId_length images q id (hsortids id hid))]
  rw [(hperm.map (fun id => (getQ q id).toNat)).sum_eq, Nat.cast_list_sum, List.map_map]
  rw [List.map_congr_left (fun id hid => by
    show (Nat.cast ∘ fun id2 => (getQ q id2).toNat) id = (fun id2 => getQ q id2) id
    simp only [Function.comp_apply]
    exact Int.toNat_of_nonneg (getQ_nonneg q hvals id))]
  exact getQ_keys_sum q hnodup

/-- The packer's column count is nonnegative whenever the printable width is. -/
theorem standardCols_nonneg (paper : PaperDims) (m : Margins) (sc ng rot : Bool)
    (ps : PassportSize) (hW : 0 ≤ mmToPx (paper.width - m.left - m.right)) :
    0 ≤ standardCols paper m sc ng rot ps := by
  simp only [standardCols]
  split
  · next hc =>
      exact Int.floor_nonneg.mpr
        (div_nonneg (add_nonneg hW (mmToPx_nonneg (gapMmOf_nonneg ng)))
          (add_nonneg (le_of_lt hc) (mmToPx_nonneg (gapMmOf_nonneg ng))))
  · exact le_rfl

/-- The packer's row count is nonnegative whenever the printable height is. -/
theorem standardRows_nonneg (paper : PaperDims) (m : Margins) (sc ng rot : Bool)
    (ps : PassportSize) (hH : 0 ≤ mmToPx (paper.height - m.top - m.bottom)) :
    0 ≤ standardRows paper m sc ng rot ps := by
  simp only [standardRows]
  split
  · next hc =>
      exact Int.floor_nonneg.mpr
        (div_nonneg (add_nonneg hH (mmToPx_nonneg (gapMmOf_nonneg ng)))
          (add_nonneg (le_of_lt hc) (mmToPx_nonneg (gapMmOf_nonneg ng))))
  · exact le_rfl

/-- `getD` through `take`, within bounds. -/
theorem getD_take_of_lt (l : List ProcImage) (n i : ℕ) (d : ProcImage)
    (h : i < (l.take n).length) :
    (l.take n).getD i d = l.getD i d := by
  have h2 : i < l.length := by
    simp only [List.length_take] at h
    omega
  rw [List.getD_eq_getElem?_getD, List.getD_eq_getElem?_getD,
    List.getElem?_eq_getElem h, List.getElem?_eq_getElem h2]
  simp [List.getElem_take]

/-- Entry `i` of the standard placement loop started at `start`: image `i` of
the input, positioned by the flat index `start + i`. -/
theorem placeStandard_getD (ipp cols : ℤ) (w h g : ℚ) (start : ℕ)
    (imgs : List ProcImage) (i : ℕ) (hi : i < imgs.length) :
    (placeStandard ipp cols w h g start imgs).getD i dummyPositioned =
      ⟨imgs.getD i dummyImage,
       ((((start + i : ℕ) : ℤ) % ipp % cols : ℤ) : ℚ) * (w + g),
       ((((start + i : ℕ) : ℤ) % ipp / cols : ℤ) : ℚ) * (h + g), w, h⟩ := by
  induction imgs generalizing start i with
  | nil => simp at hi
  | cons a l ih =>
      rw [show placeStandard ipp cols w h g start (a :: l)
          = ⟨a, (((start : ℤ) % ipp % cols : ℤ) : ℚ) * (w + g),
             (((start : ℤ) % ipp / cols : ℤ) : ℚ) * (h + g), w, h⟩
            :: placeStandard ipp cols w h g (start + 1) l from rfl]
      cases i with
      | zero =>
          rw [List.getD_cons_zero, List.getD_cons_zero]
          norm_num
      | succ n =>
          rw [List.getD_cons_succ, List.getD_cons_succ,
            ih (start + 1) n (by simpa using hi)]
          have harith : start + 1 + n = start + (n + 1) := by omega
          rw [harith]

/-! ## Claim theorems -/

/-- C2 (corrected): the unit converter is exact and unrounded:
`mmToPx(mm) * 25.4 = mm * DPI` for every `mm` — i.e. `mmToPx(mm)` equals
`mm / 25.4 * dpi` as an exact rational, with no rounding applied (the DPI is
the fixed constant 300). -/
theorem C2_mmToPx_exact (mm : ℚ) : mmToPx mm * 25.4 = mm * DPI := by
  simp only [mmToPx, DPI]
  field_simp

/-- C2 counterexample: at the A4 paper width (210 mm) the converter's output —
which is also the width assigned to the render canvas at line 591 — is not the
claimed `round(mm / 25.4 * dpi)`: `mmToPx 210 = 315000/127 ≠ 2480`. -/
theorem C2_mmToPx_not_round :
    mmToPx A4_DIMENSIONS_MM.width ≠ ((round (A4_DIMENSIONS_MM.width / 25.4 * DPI) : ℤ) : ℚ) := by
  norm_num [mmToPx, DPI, A4_DIMENSIONS_MM, round_eq]

/-- C5: in standard mode, every state reachable through the clamping quantity
handler and the capacity-recomputation effect satisfies
`sum(quantities) ≤ capacity`. -/
theorem C5_quantity_invariant (s : QuantState) (h : QuantReachable s) :
    sumQ s.quantities ≤ s.maxPhotos := by
  induction h with
  | init pw ph ps m sc ng =>
      simpa [sumQ] using layoutInfo_max_nonneg pw ph ps m sc ng
  | recompute images pw ph ps m sc ng hs ih =>
      exact resetQuantities_sum_le images _ (layoutInfo_max_nonneg pw ph ps m sc ng)
  | change id value hs ih =>
      next s1 =>
        show sumQ (handleQuantityChange false s1.quantities s1.maxPhotos id value)
          ≤ s1.maxPhotos
        unfold handleQuantityChange
        rw [if_neg (by simp)]
        by_cases h0 : 0 ≤ min value (s1.maxPhotos -
            ((s1.quantities.filter (fun p => !(p.1 == id))).map Prod.snd).sum)
        · rw [if_pos h0, sumQ_setQ]
          have h1 := min_le_right value (s1.maxPhotos -
            ((s1.quantities.filter (fun p => !(p.1 == id))).map Prod.snd).sum)
          linarith
        · rw [if_neg h0]
          exact ih

/-- C5 witness: the state after recomputing the capacity for A4 paper with 10 mm
margins and the 35×45 photo size, then requesting 40 copies of image "a",
satisfies the invariant. -/
theorem C5_witness :
    sumQ (handleQuantityChange false []
        ((calculateLayoutInfo 210 297 (some indiaPassportSize) ⟨10, 10, 10, 10⟩
          false false).max) "a" 40)
      ≤ (calculateLayoutInfo 210 297 (some indiaPassportSize) ⟨10, 10, 10, 10⟩
          false false).max :=
  C5_quantity_invariant _
    (QuantReachable.change "a" 40
      (QuantReachable.init 210 297 (some indiaPassportSize) ⟨10, 10, 10, 10⟩ false false))

/-- C7: whenever the printable width or height (paper minus margins) is zero or
negative, the Layout Calculator reports capacity 0 for both orientations and
the Sheet Packer returns an empty pagination, for every photo size, image list
and mode — reflecting that this configuration is a sentinel result, not an
exception. -/
theorem C7_nonpositive_printable (pw ph : ℚ) (photoSize : Option PassportSize)
    (m : Margins) (sc ng : Bool)
    (h : pw - m.left - m.right ≤ 0 ∨ ph - m.top - m.bottom ≤ 0) :
    calculateLayoutInfo pw ph photoSize m sc ng = ⟨0, 0, 0, false⟩ ∧
      ∀ (imgs : List ProcImage) (irand rot : Bool) (ps2 : PassportSize) (scale : ℚ),
        paginatedLayout imgs ⟨pw, ph⟩ m ng irand sc rot ps2 scale = [] := by
  constructor
  · rcases photoSize with _ | ps
    · rfl
    · by_cases hname : ps.name = "Random Size"
      · simp only [calculateLayoutInfo]
        rw [if_pos hname]
      · simp only [calculateLayoutInfo]
        rw [if_neg hname, if_pos h]
  · intro imgs irand rot ps2 scale
    unfold paginatedLayout
    by_cases hlen : imgs.length = 0
    · rw [if_pos hlen]
    · rw [if_neg hlen]
      have hpx : mmToPx (pw - m.left - m.right) ≤ 0 ∨ mmToPx (ph - m.top - m.bottom) ≤ 0 := by
        rcases h with h | h
        · exact Or.inl (mmToPx_nonpos h)
        · exact Or.inr (mmToPx_nonpos h)
      rw [if_pos hpx]

/-- C7 witness: A4 paper with 110 mm left and right margins (printable width
−10 mm) yields capacity 0 and an empty pagination. -/
theorem C7_witness :
    calculateLayoutInfo 210 297 (some indiaPassportSize) ⟨10, 110, 10, 110⟩ false false
        = ⟨0, 0, 0, false⟩ ∧
      ∀ (imgs : List ProcImage) (irand rot : Bool) (ps2 : PassportSize) (scale : ℚ),
        paginatedLayout imgs ⟨210, 297⟩ ⟨10, 110, 10, 110⟩ false irand false rot ps2 scale
          = [] :=
  C7_nonpositive_printable 210 297 (some indiaPassportSize) ⟨10, 110, 10, 110⟩
    false false (by norm_num)

/-- C8: the page-navigation machine keeps `currentPage` in `[1, pageCount]`
whenever the pagination is nonempty, and pins `currentPage = 1` when the
pagination is empty, in every reachable state. -/
theorem C8_currentPage_clamped (s : PageState) (h : PageReachable s) :
    (0 < s.pageCount → 1 ≤ s.currentPage ∧ s.currentPage ≤ s.pageCount) ∧
      (s.pageCount = 0 → s.currentPage = 1) := by
  induction h with
  | init len =>
      exact ⟨fun hl => ⟨le_refl 1, hl⟩, fun _ => rfl⟩
  | prev hs hlen hne ih =>
      next s1 =>
        have hp := ih.1 (by omega)
        constructor <;> intro hl <;> simp only at * <;> omega
  | next hs hlen hne ih =>
      next s1 =>
        have hp := ih.1 (by omega)
        constructor <;> intro hl <;> simp only at * <;> omega
  | recompute newLen hs ih =>
      next s1 =>
        have hp1 : 1 ≤ s1.currentPage := by
          rcases Nat.eq_zero_or_pos s1.pageCount with hz | hpos
          · have := ih.2 hz
            omega
          · exact (ih.1 hpos).1
        simp only
        unfold snapCurrentPage
        split
        · next hc => constructor <;> intro hl <;> omega
        · split
          · next hc => constructor <;> intro hl <;> omega
          · next hc1 hc2 =>
              constructor
              · intro hl
                refine ⟨hp1, ?_⟩
                by_contra hgt
                push_neg at hgt
                exact hc1 ⟨hgt, hl⟩
              · intro hl
                by_contra hne
                exact hc2 ⟨hl, hne⟩

/-- C8 witness: the initial state with a 5-page pagination satisfies the
clamping invariant. -/
theorem C8_witness :
    (0 < (PageState.mk 1 5).pageCount →
        1 ≤ (PageState.mk 1 5).currentPage ∧
          (PageState.mk 1 5).currentPage ≤ (PageState.mk 1 5).pageCount) ∧
      ((PageState.mk 1 5).pageCount = 0 → (PageState.mk 1 5).currentPage = 1) :=
  C8_currentPage_clamped ⟨1, 5⟩ (PageReachable.init 5)

/-- C9 (corrected): a failing image load makes the direct canvas renderer abort
with a named error identifying that image, but `renderPageToCanvas` swallows
that error: it falls back to the DOM-snapshot strategy, and only if that also
fails does the caller get an error — the generic memory-constraints one, not
the image-identifying one. -/
theorem C9_load_failure_fallback (page : List RenderImage) (paper : PaperDims)
    (h : ∃ img ∈ page, img.loads = false) :
    (∃ img ∈ page, img.loads = false ∧
        renderSheetDirectlyToCanvas page paper = Except.error (loadFailureMessage img.id)) ∧
      renderPageToCanvas page paper none = Except.error renderFailureMessage ∧
      ∀ c, renderPageToCanvas page paper (some c) = Except.ok c := by
  have hfind : ∃ x, page.find? (fun i => !i.loads) = some x := by
    rcases h with ⟨img, hmem, hload⟩
    cases heq : page.find? (fun i => !i.loads) with
    | none =>
        have := List.find?_eq_none.mp heq img hmem
        simp [hload] at this
    | some x => exact ⟨x, rfl⟩
  obtain ⟨x, hx⟩ := hfind
  have hxmem : x ∈ page := List.mem_of_find?_eq_some hx
  have hxload : x.loads = false := by
    have := List.find?_some hx
    simpa using this
  have hdirect : renderSheetDirectlyToCanvas page paper
      = Except.error (loadFailureMessage x.id) := by
    unfold renderSheetDirectlyToCanvas
    rw [hx]
  refine ⟨⟨x, hxmem, hxload, hdirect⟩, ?_, ?_⟩
  · unfold renderPageToCanvas
    rw [hdirect]
  · intro c
    unfold renderPageToCanvas
    rw [hdirect]

/-- C9 witness: a one-image page whose image fails to load. -/
theorem C9_witness :
    (∃ img ∈ [RenderImage.mk "img1" false], img.loads = false ∧
        renderSheetDirectlyToCanvas [RenderImage.mk "img1" false] A4_DIMENSIONS_MM
          = Except.error (loadFailureMessage img.id)) ∧
      renderPageToCanvas [RenderImage.mk "img1" false] A4_DIMENSIONS_MM none
          = Except.error renderFailureMessage ∧
      ∀ c, renderPageToCanvas [RenderImage.mk "img1" false] A4_DIMENSIONS_MM (some c)
          = Except.ok c :=
  C9_load_failure_fallback [⟨"img1", false⟩] A4_DIMENSIONS_MM
    ⟨⟨"img1", false⟩, List.mem_singleton.mpr rfl, rfl⟩

/-- C9 counterexample: for a page whose only image "img1" fails to load and
whose fallback also fails, the caller receives the generic memory-constraints
error, not the named error identifying "img1" — so the named load failure is
not propagated to the caller. -/
theorem C9_counterexample :
    renderPageToCanvas [RenderImage.mk "img1" false] A4_DIMENSIONS_MM none
        = Except.error renderFailureMessage ∧
      renderFailureMessage ≠ loadFailureMessage "img1" := by
  constructor
  · rfl
  · decide

/-- C3: when the printable area is positive and the (positive) cell footprint
fits on both axes, the Layout Calculator returns
`capacity = cols * rows > 0` with `cols = ⌊(printable + gap) / (cell + gap)⌋`
exactly (and rows analogously); in particular A4 with 10 mm margins, a 35×45 mm
photo, the 2 mm gap and no cut marks gives portrait capacity 5 × 5 = 25. -/
theorem C3_capacity_formula (pw ph : ℚ) (ps : PassportSize) (m : Margins) (sc ng : Bool)
    (hname : ¬ ps.name = "Random Size")
    (hW : 0 < pw - m.left - m.right)
    (hH : 0 < ph - m.top - m.bottom)
    (hcw : 0 < calcCellPx ps.width_mm sc ng)
    (hch : 0 < calcCellPx ps.height_mm sc ng)
    (hfw : calcCellPx ps.width_mm sc ng ≤ mmToPx (pw - m.left - m.right))
    (hfh : calcCellPx ps.height_mm sc ng ≤ mmToPx (ph - m.top - m.bottom)) :
    (calculateLayoutInfo pw ph (some ps) m sc ng).portrait =
        ⌊(mmToPx (pw - m.left - m.right) + mmToPx (gapMmOf ng)) /
            (calcCellPx ps.width_mm sc ng + mmToPx (gapMmOf ng))⌋ *
          ⌊(mmToPx (ph - m.top - m.bottom) + mmToPx (gapMmOf ng)) /
            (calcCellPx ps.height_mm sc ng + mmToPx (gapMmOf ng))⌋ ∧
      0 < (calculateLayoutInfo pw ph (some ps) m sc ng).portrait ∧
      (calculateLayoutInfo 210 297 (some indiaPassportSize) ⟨10, 10, 10, 10⟩
          false false).portrait = 25 := by
  have hpr : ¬(pw - m.left - m.right ≤ 0 ∨ ph - m.top - m.bottom ≤ 0) := by
    push_neg
    exact ⟨hW, hH⟩
  have hg : 0 ≤ mmToPx (gapMmOf ng) := mmToPx_nonneg (gapMmOf_nonneg ng)
  have hport : (calculateLayoutInfo pw ph (some ps) m sc ng).portrait =
      calcGrid (mmToPx (pw - m.left - m.right)) (calcCellPx ps.width_mm sc ng)
          (mmToPx (gapMmOf ng)) *
        calcGrid (mmToPx (ph - m.top - m.bottom)) (calcCellPx ps.height_mm sc ng)
          (mmToPx (gapMmOf ng)) := by
    rw [calculateLayoutInfo_branch pw ph ps m sc ng hname hpr]
  refine ⟨?_, ?_, ?_⟩
  · rw [hport]
    unfold calcGrid
    rw [if_pos hcw, if_pos hch]
  · rw [hport]
    have h1 := calcGrid_one_le (mmToPx (pw - m.left - m.right))
      (calcCellPx ps.width_mm sc ng) (mmToPx (gapMmOf ng)) hcw hg hfw
    have h2 := calcGrid_one_le (mmToPx (ph - m.top - m.bottom))
      (calcCellPx ps.height_mm sc ng) (mmToPx (gapMmOf ng)) hch hg hfh
    nlinarith
  · rw [calculateLayoutInfo_branch 210 297 indiaPassportSize ⟨10, 10, 10, 10⟩ false false
      (by decide) (by norm_num [Margins.left, Margins.right, Margins.top, Margins.bottom])]
    norm_num [calcGrid, calcCellPx, mmToPx, DPI, gapMmOf, markPaddingMmOf,
      indiaPassportSize, MARK_PADDING_PX]

/-- C3 witness: the A4 / 10 mm / 35×45 mm / gap-2 mm / no-cut-marks scenario
satisfies every hypothesis, and its portrait capacity is positive and equals 25. -/
theorem C3_witness :
    0 < (calculateLayoutInfo 210 297 (some indiaPassportSize) ⟨10, 10, 10, 10⟩
        false false).portrait ∧
      (calculateLayoutInfo 210 297 (some indiaPassportSize) ⟨10, 10, 10, 10⟩
        false false).portrait = 25 := by
  have h := C3_capacity_formula 210 297 indiaPassportSize ⟨10, 10, 10, 10⟩ false false
    (by decide)
    (by norm_num)
    (by norm_num)
    (by norm_num [calcCellPx, mmToPx, DPI, markPaddingMmOf, indiaPassportSize])
    (by norm_num [calcCellPx, mmToPx, DPI, markPaddingMmOf, indiaPassportSize])
    (by norm_num [calcCellPx, mmToPx, DPI, markPaddingMmOf, indiaPassportSize])
    (by norm_num [calcCellPx, mmToPx, DPI, markPaddingMmOf, indiaPassportSize])
  exact ⟨h.2.2 ▸ h.2.1, h.2.2⟩

/-- C10: whenever the image list or the capacity changes in standard mode, the
quantity map is rebuilt from scratch; with `n` images and capacity `c > 0` the
new quantities sum to exactly `c`, entry `i` (insertion order) receives
`⌊c / n⌋` plus one extra exactly when `i < c % n` (so quantities differ by at
most one and extras go to the earliest images); with no images or no capacity
the map is empty, so every lookup yields 0. -/
theorem C10_fill_distribution :
    (∀ (images : List ProcImage) (maxPhotos : ℤ), 0 < maxPhotos → images ≠ [] →
        sumQ (resetQuantities images maxPhotos) = maxPhotos ∧
        (resetQuantities images maxPhotos).length = images.length ∧
        ∀ i : ℕ, i < images.length →
          (resetQuantities images maxPhotos).getD i ("", 0)
            = ((images.getD i dummyImage).id,
               maxPhotos / (images.length : ℤ)
                 + if (i : ℤ) < maxPhotos % (images.length : ℤ) then 1 else 0)) ∧
      ∀ (images : List ProcImage) (maxPhotos : ℤ),
        ¬(0 < images.length ∧ 0 < maxPhotos) →
          resetQuantities images maxPhotos = [] ∧
          ∀ id, getQ (resetQuantities images maxPhotos) id = 0 := by
  constructor
  · intro images maxPhotos hmax hne
    have hlen : 0 < images.length := List.length_pos.mpr hne
    have hcond : 0 < images.length ∧ 0 < maxPhotos := ⟨hlen, hmax⟩
    have hreset : resetQuantities images maxPhotos
        = distribute (maxPhotos / (images.length : ℤ)) images
            (maxPhotos % (images.length : ℤ)) := by
      unfold resetQuantities
      rw [if_pos hcond]
    have hnez : (images.length : ℤ) ≠ 0 := by
      simp only [ne_eq, Nat.cast_eq_zero]
      omega
    refine ⟨?_, ?_, ?_⟩
    · rw [hreset, distribute_sum _ _ _ (Int.emod_nonneg _ hnez)
        (le_of_lt (Int.emod_lt_of_pos _ (by exact_mod_cast hlen)))]
      exact Int.ediv_add_emod maxPhotos (images.length : ℤ)
    · rw [hreset, distribute_length]
    · intro i hi
      rw [hreset, distribute_getD _ _ _ i hi]
  · intro images maxPhotos hcond
    have hreset : resetQuantities images maxPhotos = [] := by
      unfold resetQuantities
      rw [if_neg hcond]
    exact ⟨hreset, fun id => by rw [hreset]; rfl⟩

/-- C10 witness: two images and capacity 5 give quantities 3 and 2 (sum 5,
extra copy to the first image); one image and capacity 0 give an empty map. -/
theorem C10_witness :
    (sumQ (resetQuantities [imgA, imgB] 5) = 5 ∧
        (resetQuantities [imgA, imgB] 5).getD 0 ("", 0) = ("a", 3) ∧
        (resetQuantities [imgA, imgB] 5).getD 1 ("", 0) = ("b", 2)) ∧
      resetQuantities [imgA] 0 = [] := by
  have h := C10_fill_distribution.1 [imgA, imgB] 5 (by norm_num) (by simp)
  have h0 := (C10_fill_distribution.2 [imgA] 0 (by norm_num)).1
  refine ⟨⟨h.1, ?_, ?_⟩, h0⟩
  · have := h.2.2 0 (by norm_num)
    rw [this]
    norm_num [imgA]
  · have := h.2.2 1 (by norm_num)
    rw [this]
    norm_num [imgB]

/-- C1: the claim is right and the code has a unit slip: with cut marks on and
the gap enabled, the Layout Calculator pads cells by the 2-pixel constant
(converting px → mm → px), while the Sheet Packer feeds the same pixel constant
to `mmToPx` as though it were millimetres (2 mm ≈ 23.6 px of padding).  On A4
with 10 mm margins and the 35×45 mm size, the calculator reports capacity 25 —
which the quantity clamp then allows — but the packer computes a 4×5 grid and
places only 20 of 25 queued photos; the two cell footprints differ. -/
theorem C1_padding_unit_divergence :
    (calculateLayoutInfo 210 297 (some indiaPassportSize) ⟨10, 10, 10, 10⟩
        true false).portrait = 25 ∧
      standardItemsPerPage ⟨210, 297⟩ ⟨10, 10, 10, 10⟩ true false false
          indiaPassportSize = 20 ∧
      (paginatedLayout (List.replicate 25 imgA) ⟨210, 297⟩ ⟨10, 10, 10, 10⟩ false false
          true false indiaPassportSize 1).map List.length = [20] ∧
      standardCellWidthPx indiaPassportSize true false false
        ≠ calcCellPx indiaPassportSize.width_mm true false := by
  have hipp : standardItemsPerPage ⟨210, 297⟩ ⟨10, 10, 10, 10⟩ true false false
      indiaPassportSize = 20 := by
    norm_num [standardItemsPerPage, standardCols, standardRows, standardCellWidthPx,
      standardCellHeightPx, packerMarkPaddingMm, gapMmOf, mmToPx, DPI, MARK_PADDING_PX,
      indiaPassportSize]
  refine ⟨?_, hipp, ?_, ?_⟩
  · rw [calculateLayoutInfo_branch 210 297 indiaPassportSize ⟨10, 10, 10, 10⟩ true false
      (by decide) (by norm_num)]
    norm_num [calcGrid, calcCellPx, mmToPx, DPI, gapMmOf, markPaddingMmOf,
      indiaPassportSize, MARK_PADDING_PX]
  · simp only [paginatedLayout]
    rw [if_neg (by simp : ¬ (List.replicate 25 imgA).length = 0)]
    rw [if_neg (show ¬(mmToPx ((210 : ℚ) - 10 - 10) ≤ 0 ∨ mmToPx ((297 : ℚ) - 10 - 10) ≤ 0)
      from by push_neg; norm_num [mmToPx, DPI])]
    rw [if_neg Bool.false_ne_true, hipp]
    rw [if_pos (show (20 : ℤ) > 0 from by norm_num)]
    simp [placeStandard_length, List.length_take]
  · norm_num [standardCellWidthPx, calcCellPx, packerMarkPaddingMm, markPaddingMmOf,
      mmToPx, DPI, MARK_PADDING_PX, indiaPassportSize]

/-- C6 (amended second conjunct): in random mode, an item whose own scaled
height exceeds the printable height is placed at the top of a fresh page and
overflows it: a 1000×100 px image rotated 90° at scale 1 on A4 with 10 mm
margins is placed with render height 675000/127 px ≈ 5315 px, exceeding the
printable height 415500/127 px ≈ 3272 px. -/
theorem C6_counterexample :
    paginatedLayout [imgTall] ⟨210, 297⟩ ⟨10, 10, 10, 10⟩ false true false false
        randomSizeSentinel 1
      = [[⟨imgTall, 0, 0, 67500 / 127, 675000 / 127⟩]] ∧
      mmToPx ((297 : ℚ) - 10 - 10) < 0 + 675000 / 127 := by
  constructor
  · norm_num [paginatedLayout, randomPackGo, randomScaledWidth, randomScaledHeight,
      randomTargetHeightPx, min_def, mmToPx, DPI, gapMmOf, imgTall, randomSizeSentinel]
  · norm_num [mmToPx, DPI]

/-- C6 (corrected): whenever placing the next image would exceed the printable
height, the random-mode packer starts a new page with a fully reset cursor (see
`randomPackGo`), and no placed instance's `y + renderHeight` exceeds the
printable height provided every image's scaled footprint height fits within the
printable height on its own — a single taller-than-page item is placed at the
top of a fresh page and overflows it. -/
theorem C6_random_height_bound (imgs : List ProcImage) (paper : PaperDims) (m : Margins)
    (ng sc rot : Bool) (ps : PassportSize) (scale : ℚ)
    (hfit : ∀ img ∈ imgs,
        randomScaledHeight
            (randomTargetHeightPx (mmToPx (paper.height - m.top - m.bottom)) scale) img
          ≤ mmToPx (paper.height - m.top - m.bottom)) :
    ∀ page ∈ paginatedLayout imgs paper m ng true sc rot ps scale,
      ∀ inst ∈ page,
        inst.y + inst.renderHeight ≤ mmToPx (paper.height - m.top - m.bottom) := by
  intro page hpage
  simp only [paginatedLayout] at hpage
  by_cases hlen : imgs.length = 0
  · rw [if_pos hlen] at hpage
    simp at hpage
  · rw [if_neg hlen] at hpage
    by_cases hpr : mmToPx (paper.width - m.left - m.right) ≤ 0 ∨
        mmToPx (paper.height - m.top - m.bottom) ≤ 0
    · rw [if_pos hpr] at hpage
      simp at hpage
    · rw [if_neg hpr] at hpage
      simp only [if_true] at hpage
      have hmem := List.mem_filter.mp hpage
      exact randomPackGo_height _ _ _ _ imgs 0 0 0 [] []
        hfit (by simp) (by simp) page hmem.1

/-- C6 witness: a 100×100 px unrotated image at scale 1 on A4 with 10 mm
margins satisfies the fit hypothesis, and its placed instance stays within the
printable height. -/
theorem C6_witness :
    (((paginatedLayout [imgSquare] ⟨210, 297⟩ ⟨10, 10, 10, 10⟩ false true false false
          randomSizeSentinel 1).getD 0 []).getD 0 dummyPositioned).y
      + (((paginatedLayout [imgSquare] ⟨210, 297⟩ ⟨10, 10, 10, 10⟩ false true false false
          randomSizeSentinel 1).getD 0 []).getD 0 dummyPositioned).renderHeight
      ≤ mmToPx ((PaperDims.mk 210 297).height - (Margins.mk 10 10 10 10).top
          - (Margins.mk 10 10 10 10).bottom) := by
  have hpag : paginatedLayout [imgSquare] ⟨210, 297⟩ ⟨10, 10, 10, 10⟩ false true false
      false randomSizeSentinel 1
      = [[⟨imgSquare, 0, 0, 67500 / 127, 67500 / 127⟩]] := by
    norm_num [paginatedLayout, randomPackGo, randomScaledWidth, randomScaledHeight,
      randomTargetHeightPx, min_def, mmToPx, DPI, gapMmOf, imgSquare, randomSizeSentinel]
  have h1 : (paginatedLayout [imgSquare] ⟨210, 297⟩ ⟨10, 10, 10, 10⟩ false true false
      false randomSizeSentinel 1).getD 0 []
      ∈ paginatedLayout [imgSquare] ⟨210, 297⟩ ⟨10, 10, 10, 10⟩ false true false false
        randomSizeSentinel 1 := by
    rw [hpag]
    simp
  have h2 : ((paginatedLayout [imgSquare] ⟨210, 297⟩ ⟨10, 10, 10, 10⟩ false true false
      false randomSizeSentinel 1).getD 0 []).getD 0 dummyPositioned
      ∈ (paginatedLayout [imgSquare] ⟨210, 297⟩ ⟨10, 10, 10, 10⟩ false true false false
        randomSizeSentinel 1).getD 0 [] := by
    rw [hpag]
    simp
  exact C6_random_height_bound [imgSquare] ⟨210, 297⟩ ⟨10, 10, 10, 10⟩ false false false
    randomSizeSentinel 1
    (by
      intro img hmem
      rw [List.mem_singleton.mp hmem]
      norm_num [randomScaledHeight, randomTargetHeightPx, min_def, mmToPx, DPI, imgSquare])
    _ h1 _ h2

/-- C4 counterexample: with one image and an empty quantity map (sum of
quantities 0), the standard-mode packer produces no page at all — not "exactly
one page" with `min(sum, capacity) = 0` instances. -/
theorem C4_counterexample :
    paginatedLayout (imagesToPrint [imgA] [] false) ⟨210, 297⟩ ⟨10, 10, 10, 10⟩
      false false false false indiaPassportSize 1 = [] := rfl

/-- C4 (corrected): in standard mode with a positive printable area, positive
capacity and a positive quantity total, the packer produces exactly one page
with `min(sum(quantities), capacity)` instances; the instance at flat index `i`
is image `i` of the expanded list, at `x = (i % cols) · (cellW + gap)`,
`y = ⌊i / cols⌋ · (cellH + gap)` relative to the printable-area origin, with
`(i % cols, ⌊i / cols⌋)` inside `[0, cols) × [0, rows)` and distinct for
distinct indices.  (When the expanded list is empty or the capacity is zero,
the pagination is empty instead of holding one empty page.) -/
theorem C4_standard_packing (images : List ProcImage) (q : Quantities)
    (paper : PaperDims) (m : Margins) (sc ng rot : Bool) (ps : PassportSize)
    (scale : ℚ)
    (hkeys : ∀ p ∈ q, ∃ im ∈ images, im.id = p.1)
    (hnodup : (q.map Prod.fst).Nodup)
    (hvals : ∀ p ∈ q, 0 ≤ p.2)
    (hsum : 0 < sumQ q)
    (hW : 0 < mmToPx (paper.width - m.left - m.right))
    (hH : 0 < mmToPx (paper.height - m.top - m.bottom))
    (hipp : 0 < standardItemsPerPage paper m sc ng rot ps) :
    (paginatedLayout (imagesToPrint images q false) paper m ng false sc rot ps
        scale).length = 1 ∧
      ((paginatedLayout (imagesToPrint images q false) paper m ng false sc rot ps
          scale).getD 0 []).length
        = min (sumQ q).toNat (standardItemsPerPage paper m sc ng rot ps).toNat ∧
      (∀ i : ℕ,
        i < ((paginatedLayout (imagesToPrint images q false) paper m ng false sc rot ps
            scale).getD 0 []).length →
          ((paginatedLayout (imagesToPrint images q false) paper m ng false sc rot ps
              scale).getD 0 []).getD i dummyPositioned
            = ⟨(imagesToPrint images q false).getD i dummyImage,
               (((i : ℤ) % standardCols paper m sc ng rot ps : ℤ) : ℚ)
                 * (standardCellWidthPx ps sc ng rot + mmToPx (gapMmOf ng)),
               (((i : ℤ) / standardCols paper m sc ng rot ps : ℤ) : ℚ)
                 * (standardCellHeightPx ps sc ng rot + mmToPx (gapMmOf ng)),
               standardCellWidthPx ps sc ng rot, standardCellHeightPx ps sc ng rot⟩ ∧
            (i : ℤ) % standardCols paper m sc ng rot ps
              < standardCols paper m sc ng rot ps ∧
            (i : ℤ) / standardCols paper m sc ng rot ps
              < standardRows paper m sc ng rot ps) ∧
      ∀ i j : ℕ,
        i < ((paginatedLayout (imagesToPrint images q false) paper m ng false sc rot ps
            scale).getD 0 []).length →
        j < ((paginatedLayout (imagesToPrint images q false) paper m ng false sc rot ps
            scale).getD 0 []).length →
        i ≠ j →
          ¬((i : ℤ) % standardCols paper m sc ng rot ps
              = (j : ℤ) % standardCols paper m sc ng rot ps ∧
            (i : ℤ) / standardCols paper m sc ng rot ps
              = (j : ℤ) / standardCols paper m sc ng rot ps) := by
  have hlenL : ((imagesToPrint images q false).length : ℤ) = sumQ q :=
    imagesToPrint_length images q hkeys hnodup hvals
  have hL0 : ¬ (imagesToPrint images q false).length = 0 := by
    intro hz
    rw [hz] at hlenL
    omega
  have hcnn := standardCols_nonneg paper m sc ng rot ps (le_of_lt hW)
  have hrnn := standardRows_nonneg paper m sc ng rot ps (le_of_lt hH)
  have hipp2 : 0 < standardCols paper m sc ng rot ps * standardRows paper m sc ng rot ps :=
    hipp
  have hcpos : 0 < standardCols paper m sc ng rot ps := by
    rcases lt_or_eq_of_le hcnn with hlt | heq
    · exact hlt
    · rw [← heq, zero_mul] at hipp2
      exact absurd hipp2 (lt_irrefl 0)
  have hrpos : 0 < standardRows paper m sc ng rot ps := by
    rcases lt_or_eq_of_le hrnn with hlt | heq
    · exact hlt
    · rw [← heq, mul_zero] at hipp2
      exact absurd hipp2 (lt_irrefl 0)
  have hplen0 : 0 < (placeStandard (standardItemsPerPage paper m sc ng rot ps)
      (standardCols paper m sc ng rot ps) (standardCellWidthPx ps sc ng rot)
      (standardCellHeightPx ps sc ng rot) (mmToPx (gapMmOf ng)) 0
      ((imagesToPrint images q false).take
        (standardItemsPerPage paper m sc ng rot ps).toNat)).length := by
    rw [placeStandard_length, List.length_take]
    omega
  have hpag : paginatedLayout (imagesToPrint images q false) paper m ng false sc rot ps
      scale
      = [placeStandard (standardItemsPerPage paper m sc ng rot ps)
          (standardCols paper m sc ng rot ps) (standardCellWidthPx ps sc ng rot)
          (standardCellHeightPx ps sc ng rot) (mmToPx (gapMmOf ng)) 0
          ((imagesToPrint images q false).take
            (standardItemsPerPage paper m sc ng rot ps).toNat)] := by
    unfold paginatedLayout
    rw [if_neg hL0,
      if_neg (show ¬(mmToPx (paper.width - m.left - m.right) ≤ 0 ∨
          mmToPx (paper.height - m.top - m.bottom) ≤ 0) from by
        push_neg
        exact ⟨hW, hH⟩)]
    dsimp only
    rw [if_neg Bool.false_ne_true, if_pos hipp]
    rw [List.filter_cons, if_pos (by simpa using hplen0)]
    rfl
  have hpagelen : ((paginatedLayout (imagesToPrint images q false) paper m ng false sc
      rot ps scale).getD 0 []).length
      = min (sumQ q).toNat (standardItemsPerPage paper m sc ng rot ps).toNat := by
    rw [hpag, List.getD_cons_zero, placeStandard_length, List.length_take]
    have hlen2 : (imagesToPrint images q false).length = (sumQ q).toNat := by omega
    rw [hlen2, Nat.min_comm]
  refine ⟨by rw [hpag]; rfl, hpagelen, ?_, ?_⟩
  · intro i hi
    have hi2 : i < ((imagesToPrint images q false).take
        (standardItemsPerPage paper m sc ng rot ps).toNat).length := by
      rw [hpag, List.getD_cons_zero, placeStandard_length] at hi
      exact hi
    have himod : ((i : ℕ) : ℤ) % standardItemsPerPage paper m sc ng rot ps = (i : ℤ) := by
      apply Int.emod_eq_of_lt (by positivity)
      have : i < (standardItemsPerPage paper m sc ng rot ps).toNat := by
        rw [List.length_take] at hi2
        omega
      omega
    refine ⟨?_, Int.emod_lt_of_pos _ hcpos, ?_⟩
    · rw [hpag, List.getD_cons_zero, placeStandard_getD _ _ _ _ _ 0 _ i hi2]
      rw [getD_take_of_lt _ _ _ _ hi2]
      rw [show (0 + i : ℕ) = i from by omega, himod]
    · apply Int.ediv_lt_of_lt_mul hcpos
      have hilt : (i : ℤ) < standardItemsPerPage paper m sc ng rot ps := by
        rw [List.length_take] at hi2
        omega
      calc (i : ℤ) < standardItemsPerPage paper m sc ng rot ps := hilt
        _ = standardRows paper m sc ng rot ps * standardCols paper m sc ng rot ps :=
          mul_comm _ _
  · intro i j hi hj hne hcontra
    apply hne
    have hieq : (i : ℤ) = standardCols paper m sc ng rot ps
        * ((i : ℤ) / standardCols paper m sc ng rot ps)
        + (i : ℤ) % standardCols paper m sc ng rot ps :=
      (Int.ediv_add_emod _ _).symm
    have hjeq : (j : ℤ) = standardCols paper m sc ng rot ps
        * ((j : ℤ) / standardCols paper m sc ng rot ps)
        + (j : ℤ) % standardCols paper m sc ng rot ps :=
      (Int.ediv_add_emod _ _).symm
    have : (i : ℤ) = (j : ℤ) := by
      rw [hieq, hjeq, hcontra.1, hcontra.2]
    exact_mod_cast this

/-- C4 witness: two images with quantities 2 and 1 on A4 with 10 mm margins and
the 35×45 mm size (capacity 25): one page with min(3, 25) = 3 instances. -/
theorem C4_witness :
    (paginatedLayout (imagesToPrint [imgA, imgB] [("a", 2), ("b", 1)] false)
        ⟨210, 297⟩ ⟨10, 10, 10, 10⟩ false false false false indiaPassportSize 1).length
      = 1 ∧
      ((paginatedLayout (imagesToPrint [imgA, imgB] [("a", 2), ("b", 1)] false)
          ⟨210, 297⟩ ⟨10, 10, 10, 10⟩ false false false false indiaPassportSize
          1).getD 0 []).length
        = min (sumQ [("a", 2), ("b", 1)]).toNat
            (standardItemsPerPage ⟨210, 297⟩ ⟨10, 10, 10, 10⟩ false false false
              indiaPassportSize).toNat := by
  have h := C4_standard_packing [imgA, imgB] [("a", 2), ("b", 1)] ⟨210, 297⟩
    ⟨10, 10, 10, 10⟩ false false false indiaPassportSize 1
    (by
      intro p hp
      rcases List.mem_cons.mp hp with rfl | hp2
      · exact ⟨imgA, by simp [imgA]⟩
      · rcases List.mem_cons.mp hp2 with rfl | hp3
        · exact ⟨imgB, by simp [imgB]⟩
        · simp at hp3)
    (by simp)
    (by
      intro p hp
      rcases List.mem_cons.mp hp with rfl | hp2
      · norm_num
      · rcases List.mem_cons.mp hp2 with rfl | hp3
        · norm_num
        · simp at hp3)
    (by norm_num [sumQ])
    (by norm_num [mmToPx, DPI])
    (by norm_num [mmToPx, DPI])
    (by norm_num [standardItemsPerPage, standardCols, standardRows, standardCellWidthPx,
      standardCellHeightPx, packerMarkPaddingMm, gapMmOf, mmToPx, DPI, MARK_PADDING_PX,
      indiaPassportSize])
  exact ⟨h.1, h.2.1⟩

end PrintApp
